import Mathlib

/-
Verification of the SSH bastion menu (src/bastion/ssh_menu.py).

The embedding models JSON values as loaded by the standard library
(objects, arrays, strings, integers, booleans, null; floating-point
numbers are out of scope for every property considered here) and gives
the dynamic operations used by the source their runtime semantics:
`in`, subscription, `.get`, `len`, truthiness.  Operations that can
raise at runtime return `Except Unit`, with `Except.error ()` standing
for an uncaught exception (TypeError / KeyError / IndexError /
AttributeError).  The filesystem operations (home-directory expansion
and key-file existence) are abstract parameters `expand` and `fs`,
matching the spec's filesystem capability.
-/

namespace SSHMenu

/-- A JSON value as produced by the config loader. -/
inductive JVal where
  | null
  | bool (b : Bool)
  | int (n : Int)
  | str (s : String)
  | arr (xs : List JVal)
  | obj (fields : List (String × JVal))

/-- First-match lookup in an object's field list (config objects have
unique keys, so first-match agrees with dict semantics). -/
def objGet? (fields : List (String × JVal)) (k : String) : Option JVal :=
  (fields.find? (fun p => p.1 == k)).map (fun p => p.2)

/-- Membership of an object's key. -/
def objHas (fields : List (String × JVal)) (k : String) : Bool :=
  fields.any (fun p => p.1 == k)

/-- Python `k in s` on strings (substring test). -/
def strIn (k s : String) : Bool :=
  if k == "" then true else (s.splitOn k).length != 1

/-- Python `k in v` for a string key `k`: defined on dicts (key
membership), lists (element equality) and strings (substring); raises
TypeError on the other values. -/
def pyContains : JVal → String → Except Unit Bool
  | .obj fields, k => .ok (objHas fields k)
  | .arr xs, k => .ok (xs.any (fun x => match x with | .str s => s == k | _ => false))
  | .str s, k => .ok (strIn k s)
  | _, _ => .error ()

/-- Python `v[k]` for a string key: dict lookup (KeyError when the key
is absent); raises TypeError on every non-dict value. -/
def pyGetItem : JVal → String → Except Unit JVal
  | .obj fields, k =>
      match objGet? fields k with
      | some v => .ok v
      | none => .error ()
  | _, _ => .error ()

/-- Python `v.get(k)` / `v.get(k, d)`: defined on dicts only
(AttributeError otherwise); returns the stored value or `none`. -/
def pyGet : JVal → String → Except Unit (Option JVal)
  | .obj fields, k => .ok (objGet? fields k)
  | _, _ => .error ()

/-- Python list indexing with a non-negative index (IndexError when out
of range). -/
def pyIdx (xs : List JVal) (i : Nat) : Except Unit JVal :=
  match xs[i]? with
  | some v => .ok v
  | none => .error ()

/-- Python `v[i]` for a non-negative integer index: lists index,
strings yield a one-character string; dicts raise KeyError (config
keys are strings), the rest raise TypeError. -/
def pySubNat : JVal → Nat → Except Unit JVal
  | .arr xs, i => pyIdx xs i
  | .str s, i =>
      match s.data[i]? with
      | some c => .ok (.str (String.mk [c]))
      | none => .error ()
  | _, _ => .error ()

/-- Python `len(v)` (TypeError on unsized values). -/
def pyLen : JVal → Except Unit Nat
  | .arr xs => .ok xs.length
  | .str s => .ok s.length
  | .obj fields => .ok fields.length
  | _ => .error ()

/-- Python truthiness. -/
def truthy : JVal → Bool
  | .null => false
  | .bool b => b
  | .int n => n != 0
  | .str s => s != ""
  | .arr xs => !xs.isEmpty
  | .obj fields => !fields.isEmpty

/-- `isinstance(v, int)` — booleans are ints in Python. -/
def isInstInt : JVal → Bool
  | .int _ => true
  | .bool _ => true
  | _ => false

/-- `isinstance(v, list)`. -/
def isInstList : JVal → Bool
  | .arr _ => true
  | _ => false

/-- `isinstance(v, dict)`. -/
def isInstDict : JVal → Bool
  | .obj _ => true
  | _ => false

/-- Numeric value of a Python int (booleans count as 0 / 1); only
consulted after `isInstInt`. -/
def asInt : JVal → Int
  | .int n => n
  | .bool b => if b then 1 else 0
  | _ => 0

/-- The underlying list of an array; only consulted after `isInstList`. -/
def asArr : JVal → List JVal
  | .arr xs => xs
  | _ => []

/-- `Path(v)` on a non-string raises TypeError; this extracts the
string or fails accordingly. -/
def asStr : JVal → Except Unit String
  | .str s => .ok s
  | _ => .error ()

mutual

/-- Python `repr` of a JSON value (used by f-string formatting of
containers). -/
def pyRepr : JVal → String
  | .null => "None"
  | .bool b => if b then "True" else "False"
  | .int n => toString n
  | .str s => "\x27" ++ s ++ "\x27"
  | .arr xs => "[" ++ String.intercalate ", " (pyReprList xs) ++ "]"
  | .obj fields => "\x7b" ++ String.intercalate ", " (pyReprFields fields) ++ "\x7d"

/-- `repr` of each element of a list. -/
def pyReprList : List JVal → List String
  | [] => []
  | x :: xs => pyRepr x :: pyReprList xs

/-- `repr` of each key/value pair of a dict. -/
def pyReprFields : List (String × JVal) → List String
  | [] => []
  | (k, v) :: fields => ("\x27" ++ k ++ "\x27: " ++ pyRepr v) :: pyReprFields fields

end

/-- Python `str` of a JSON value, as interpolated by f-strings. -/
def pyStr : JVal → String
  | .str s => s
  | v => pyRepr v

/-- `get_port` (ssh_menu.py lines 155-163): `server.get('port', 22)`,
falling back to 22 unless the stored value is an int within
[1, 65535]; otherwise the stored value itself is returned. -/
def get_port (server : JVal) : Except Unit JVal := do
  let p? ← pyGet server "port"
  let port := p?.getD (.int 22)
  if isInstInt port && decide (1 ≤ asInt port) && decide (asInt port ≤ 65535) then
    pure port
  else
    pure (.int 22)

/-- `get_port` specialised to a dict argument (a pure value). -/
def get_port_val (fields : List (String × JVal)) : JVal :=
  let port := (objGet? fields "port").getD (.int 22)
  if isInstInt port && decide (1 ≤ asInt port) && decide (asInt port ≤ 65535) then
    port
  else
    .int 22

/-- `get_auth_method_display` (lines 144-153): a truthy `key_path`
classifies as KEY with the expanded path (`Path(...)` raising on a
truthy non-string), otherwise PASSWORD with no path. -/
def get_auth_method_display (expand : String → String) (user : JVal) :
    Except Unit (String × Option String) := do
  let kp? ← pyGet user "key_path"
  let key_path := kp?.getD .null
  if truthy key_path then do
    let s ← asStr key_path
    pure ("KEY", some (expand s))
  else
    pure ("PASSWORD", none)

/-- `normalize_server_format` (lines 116-142): build
`{ip, description (default "N/A"), port}`, then either pass the
`users` value through unchanged or synthesize a single-element list
from the legacy `username` / `key_path` / `description` fields. -/
def normalize_server_format (server : JVal) : Except Unit (JVal × JVal) := do
  let ip ← pyGetItem server "ip"
  let desc? ← pyGet server "description"
  let port ← get_port server
  let server_info : JVal :=
    .obj [("ip", ip), ("description", desc?.getD (.str "N/A")), ("port", port)]
  let has_users ← pyContains server "users"
  if has_users then do
    let users ← pyGetItem server "users"
    pure (server_info, users)
  else do
    let username ← pyGetItem server "username"
    let kp? ← pyGet server "key_path"
    let d? ← pyGet server "description"
    pure (server_info,
      .arr [.obj [("username", username),
                  ("key_path", kp?.getD .null),
                  ("description", d?.getD (.str "Default user"))]])

/-- Per-user checks of `validate_config` (lines 91-100): `username`
required; a truthy `key_path` must be a string naming an existing file
after home-directory expansion. -/
def validate_user (fs : String → Bool) (expand : String → String)
    (user_pre : String) (user : JVal) : Except Unit (List String) := do
  let hasU ← pyContains user "username"
  let e1 := if !hasU then [user_pre ++ ": Missing required field \x27username\x27"] else []
  let hasK ← pyContains user "key_path"
  let e2 ← if hasK then do
      let kp ← pyGetItem user "key_path"
      if truthy kp then do
        let s ← asStr kp
        if !(fs (expand s)) then
          pure [user_pre ++ ": SSH key not found at \x27" ++ s ++ "\x27"]
        else
          pure ([] : List String)
      else
        pure ([] : List String)
    else
      pure ([] : List String)
  pure (e1 ++ e2)

/-- The common shape of the three enumeration loops of
`validate_config`: run the per-element checks with the element's
index, accumulating error messages in iteration order. -/
def collect_errors (body : Nat → JVal → Except Unit (List String)) :
    Nat → List JVal → Except Unit (List String)
  | _, [] => pure []
  | i, x :: rest => do
      let e ← body i x
      let es ← collect_errors body (i + 1) rest
      pure (e ++ es)

/-- The user loop of `validate_config`, accumulating errors in
iteration order. -/
def validate_users (fs : String → Bool) (expand : String → String)
    (srv_pre : String) : Nat → List JVal → Except Unit (List String) :=
  collect_errors
    (fun i u => validate_user fs expand (srv_pre ++ " User [" ++ toString i ++ "]") u)

/-- The `users`-array block of the per-server checks (lines 85-100):
when the server has a `users` field it must be a non-empty list of
valid users. -/
def users_errors (fs : String → Bool) (expand : String → String)
    (srv_pre : String) (server : JVal) (has_users : Bool) :
    Except Unit (List String) :=
  if has_users then do
    let usersV ← pyGetItem server "users"
    if !(isInstList usersV) then
      pure [srv_pre ++ ": \x27users\x27 must be an array"]
    else if (asArr usersV).length == 0 then
      pure [srv_pre ++ ": \x27users\x27 array cannot be empty"]
    else
      validate_users fs expand srv_pre 0 (asArr usersV)
  else
    pure []

/-- The port block of the per-server checks (lines 102-106): `port`,
when present and non-null, must be an int within [1, 65535]. -/
def port_errors (srv_pre : String) (server : JVal) : Except Unit (List String) := do
  let hasPort ← pyContains server "port"
  if hasPort then do
    let portV ← pyGetItem server "port"
    match portV with
    | .null => pure []
    | portV =>
      if !(isInstInt portV && decide (1 ≤ asInt portV) && decide (asInt portV ≤ 65535)) then
        pure [srv_pre ++ ": Invalid port \x27" ++ pyStr portV ++ "\x27 (must be 1-65535)"]
      else
        pure []
  else
    pure []

/-- The legacy key block of the per-server checks (lines 108-112): for
a legacy server, a truthy `key_path` must name an existing file after
home-directory expansion. -/
def legacy_key_errors (fs : String → Bool) (expand : String → String)
    (srv_pre : String) (server : JVal) (has_username : Bool) :
    Except Unit (List String) :=
  if has_username then do
    let hasK ← pyContains server "key_path"
    if hasK then do
      let kp ← pyGetItem server "key_path"
      if truthy kp then do
        let s ← asStr kp
        if !(fs (expand s)) then
          pure [srv_pre ++ ": SSH key not found at \x27" ++ s ++ "\x27"]
        else
          pure []
      else
        pure []
    else
      pure []
  else
    pure []

/-- Per-server checks of `validate_config` (lines 67-112): `ip`
required; exactly one of `username` / `users`; then the `users` block,
the port block and the legacy key block, with all error messages
accumulated in source order. -/
def validate_server (fs : String → Bool) (expand : String → String)
    (srv_pre : String) (server : JVal) : Except Unit (List String) := do
  let hasIp ← pyContains server "ip"
  let e1 := if !hasIp then [srv_pre ++ ": Missing required field \x27ip\x27"] else []
  let has_username ← pyContains server "username"
  let has_users ← pyContains server "users"
  let e2 := if !has_username && !has_users then
      [srv_pre ++ ": Must have either \x27username\x27 or \x27users\x27 field"]
    else []
  let e3 := if has_username && has_users then
      [srv_pre ++ ": Cannot have both \x27username\x27 and \x27users\x27 fields"]
    else []
  let e4 ← users_errors fs expand srv_pre server has_users
  let e5 ← port_errors srv_pre server
  let e6 ← legacy_key_errors fs expand srv_pre server has_username
  pure (e1 ++ e2 ++ e3 ++ e4 ++ e5 ++ e6)

/-- The server loop of `validate_config`. -/
def validate_servers (fs : String → Bool) (expand : String → String)
    (net_pre : String) : Nat → List JVal → Except Unit (List String) :=
  collect_errors
    (fun j s => validate_server fs expand (net_pre ++ " Server [" ++ toString j ++ "]") s)

/-- Per-network checks of `validate_config` (lines 53-65): `name` and
`servers` required; `servers`, when present, must be a list (otherwise
the per-server checks of this network are skipped). -/
def validate_network (fs : String → Bool) (expand : String → String)
    (idx : Nat) (network : JVal) : Except Unit (List String) := do
  let net_pre := "Network [" ++ toString idx ++ "]"
  let hasName ← pyContains network "name"
  let e1 := if !hasName then [net_pre ++ ": Missing required field \x27name\x27"] else []
  let hasServers ← pyContains network "servers"
  let e2 := if !hasServers then [net_pre ++ ": Missing required field \x27servers\x27"] else []
  let e3 ← if hasServers then do
      let sv ← pyGetItem network "servers"
      if !(isInstList sv) then
        pure [net_pre ++ ": \x27servers\x27 must be an array"]
      else
        validate_servers fs expand net_pre 0 (asArr sv)
    else
      pure ([] : List String)
  pure (e1 ++ e2 ++ e3)

/-- The network loop of `validate_config`. -/
def validate_networks (fs : String → Bool) (expand : String → String) :
    Nat → List JVal → Except Unit (List String) :=
  collect_errors (fun i n => validate_network fs expand i n)

/-- `validate_config` (lines 33-114): short-circuit on a missing or
malformed top level, then collect every violation across the
network / server / user loops. -/
def validate_config (fs : String → Bool) (expand : String → String)
    (config : JVal) : Except Unit (List String) := do
  if !(isInstDict config) then
    pure ["Config must be a JSON object"]
  else do
    let hasN ← pyContains config "networks"
    if !hasN then
      pure ["Missing \x27networks\x27 key in config"]
    else do
      let nv ← pyGetItem config "networks"
      if !(isInstList nv) then
        pure ["\x27networks\x27 must be an array"]
      else
        validate_networks fs expand 0 (asArr nv)

/-- A keypress, as dispatched by the three selection loops: arrow up,
arrow down, ENTER, one of q / Q / ESC, or any other key (ignored by
the dispatch chains). -/
inductive Key where
  | up
  | down
  | enter
  | quit
  | other (c : Nat)

/-- The control state of the interactive loop: the three nested
selection loops (`run_network_selection`, `run_server_selection`,
`run_user_selection`, identified by the cursor indices of the
enclosing loops), the blocking empty-network message (lines 358-374),
the blocking `connect_ssh` call (which remembers the state it
resumes), and process exit. -/
inductive MenuState where
  | networkList (row : Nat)
  | emptyServers (row : Nat)
  | serverList (netRow row : Nat)
  | userList (netRow srvRow row : Nat)
  | connecting (back : MenuState) (server_info user : JVal)
  | exited

/-- The `servers` value the server-selection loop works on:
`networks[netRow]` followed by `network.get('servers', [])`
(lines 347, 356). -/
def serversOf (networks : List JVal) (netRow : Nat) : Except Unit JVal := do
  let network ← pyIdx networks netRow
  let s? ← pyGet network "servers"
  pure (s?.getD (.arr []))

/-- The `(server_info, users)` pair the user-selection loop works on:
`normalize_server_format(servers[srvRow])` (line 443). -/
def usersOf (networks : List JVal) (netRow srvRow : Nat) : Except Unit (JVal × JVal) := do
  let servers ← serversOf networks netRow
  let server ← pySubNat servers srvRow
  normalize_server_format server

/-- One keypress of the interactive loop (the key-dispatch chains at
lines 342-351, 437-452, 523-531, the empty-server wait at lines
371-374, and the return from `connect_ssh`).  `Except.error ()` is an
uncaught exception escaping the loop. -/
def step (networks : List JVal) : MenuState → Key → Except Unit MenuState
  | .networkList row, .up =>
      pure (if row > 0 then .networkList (row - 1) else .networkList row)
  | .networkList row, .down =>
      pure (if row < networks.length - 1 then .networkList (row + 1) else .networkList row)
  | .networkList row, .enter => do
      let network ← pyIdx networks row
      let s? ← pyGet network "servers"
      let servers := s?.getD (.arr [])
      if !(truthy servers) then
        pure (.emptyServers row)
      else
        pure (.serverList row 0)
  | .networkList _, .quit => pure .exited
  | .networkList row, .other _ => pure (.networkList row)
  | .emptyServers row, _ => pure (.networkList row)
  | .serverList netRow row, .up =>
      pure (if row > 0 then .serverList netRow (row - 1) else .serverList netRow row)
  | .serverList netRow row, .down => do
      let servers ← serversOf networks netRow
      let n ← pyLen servers
      pure (if row < n - 1 then .serverList netRow (row + 1) else .serverList netRow row)
  | .serverList netRow row, .enter => do
      let servers ← serversOf networks netRow
      let server ← pySubNat servers row
      let r ← normalize_server_format server
      let n ← pyLen r.2
      if n == 1 then do
        let u ← pySubNat r.2 0
        pure (.connecting (.serverList netRow row) r.1 u)
      else
        pure (.userList netRow row 0)
  | .serverList netRow _, .quit => pure (.networkList netRow)
  | .serverList netRow row, .other _ => pure (.serverList netRow row)
  | .userList netRow srvRow row, .up =>
      pure (if row > 0 then .userList netRow srvRow (row - 1) else .userList netRow srvRow row)
  | .userList netRow srvRow row, .down => do
      let r ← usersOf networks netRow srvRow
      let n ← pyLen r.2
      pure (if row < n - 1 then .userList netRow srvRow (row + 1) else .userList netRow srvRow row)
  | .userList netRow srvRow row, .enter => do
      let r ← usersOf networks netRow srvRow
      let u ← pySubNat r.2 row
      pure (.connecting (.userList netRow srvRow row) r.1 u)
  | .userList netRow srvRow _, .quit => pure (.serverList netRow srvRow)
  | .userList netRow srvRow row, .other _ => pure (.userList netRow srvRow row)
  | .connecting back _ _, _ => pure back
  | .exited, _ => pure .exited

/-- The text shown by the empty-network branch of
`run_server_selection` (lines 358-372): the header title, the
empty-state message and the footer. -/
def draw_no_servers (networks : List JVal) (row : Nat) : Except Unit (List String) := do
  let network ← pyIdx networks row
  let name ← pyGetItem network "name"
  pure [pyStr name ++ " Network",
        "No servers configured in this network",
        "Press any key to return..."]

/-- The startup decision of `run` (lines 592-622): validate, abort on a
non-empty error list, otherwise enter the network-selection loop over
`config['networks']` with the cursor at 0. -/
def run_start (fs : String → Bool) (expand : String → String) (config : JVal) :
    Except Unit (Option (List JVal × MenuState)) := do
  let errors ← validate_config fs expand config
  if errors.length != 0 then
    pure none
  else do
    let nv ← pyGetItem config "networks"
    pure (some (asArr nv, .networkList 0))

/-- The cursor bound maintained by every list state: within
[0, len-1] for a non-empty list and pinned at 0 for an empty one,
i.e. below `max len 1`.  For the server and user lists the bound is
stated against whatever length the loop's own recomputation yields;
`connecting` carries the invariant of the state it resumes. -/
def cursorInv (networks : List JVal) : MenuState → Prop
  | .networkList row => row < max networks.length 1
  | .emptyServers row => row < max networks.length 1
  | .serverList netRow row =>
      netRow < max networks.length 1 ∧
      ∀ sv n, serversOf networks netRow = .ok sv → pyLen sv = .ok n → row < max n 1
  | .userList netRow srvRow row =>
      netRow < max networks.length 1 ∧
      (∀ sv n, serversOf networks netRow = .ok sv → pyLen sv = .ok n → srvRow < max n 1) ∧
      (∀ r m, usersOf networks netRow srvRow = .ok r → pyLen r.2 = .ok m → row < max m 1)
  | .connecting back _ _ => cursorInv networks back
  | .exited => True

/-! Concrete inventories used by witnesses and counterexamples. -/

/-- The inventory `{"networks": []}`. -/
def cfgEmptyNetworks : JVal := .obj [("networks", .arr [])]

/-- A user record carrying only a username. -/
def userA : JVal := .obj [("username", .str "a")]

/-- A second user record carrying only a username. -/
def userB : JVal := .obj [("username", .str "b")]

/-- A network named `lab` with the given servers. -/
def mkNet (ss : List JVal) : JVal := .obj [("name", .str "lab"), ("servers", .arr ss)]

/-- A legacy-format server with a single implicit user. -/
def srvLegacy : JVal := .obj [("ip", .str "10.0.0.1"), ("username", .str "root")]

/-- A list-format server with two users. -/
def srvTwoUsers : JVal := .obj [("ip", .str "10.0.0.2"), ("users", .arr [userA, userB])]

/-- A server carrying both credential shapes. -/
def srvBoth : JVal := .obj [("ip", .str "10.0.0.5"), ("username", .str "a"), ("users", .arr [userB])]

/-- A server carrying neither credential shape. -/
def srvNeither : JVal := .obj [("ip", .str "10.0.0.6")]

/-- The field list of a network holding the both-shapes server and the
neither-shape server. -/
def nfBothNeither : List (String × JVal) :=
  [("name", .str "lab"), ("servers", .arr [srvBoth, srvNeither])]

/-- The field list of the config wrapping that network. -/
def cfBothNeither : List (String × JVal) := [("networks", .arr [.obj nfBothNeither])]

/-- The error list `validate_config` produces on that config. -/
def errsBothNeither : List String :=
  ["Network [0] Server [0]: Cannot have both \x27username\x27 and \x27users\x27 fields",
   "Network [0] Server [1]: Must have either \x27username\x27 or \x27users\x27 field"]

/-! Helper lemmas about `Except` bind, used to unfold the monadic
definitions against hypotheses. -/

@[simp]
theorem bindE_ok {α β : Type} (a : α) (f : α → Except Unit β) :
    (Except.ok a : Except Unit α) >>= f = f a := rfl

@[simp]
theorem bindE_error {α β : Type} (f : α → Except Unit β) :
    (Except.error () : Except Unit α) >>= f = Except.error () := rfl

@[simp]
theorem pureE_eq_ok {α : Type} (a : α) : (pure a : Except Unit α) = Except.ok a := rfl

theorem ok_of_bind_ok {α β : Type} {m : Except Unit α} {f : α → Except Unit β} {b : β}
    (h : m >>= f = .ok b) : ∃ a, m = .ok a ∧ f a = .ok b := by
  cases m with
  | ok a => exact ⟨a, rfl, h⟩
  | error e => cases e; simp at h

/-- C1: the claim says that after `validate_config` returns an empty
error list the interactive loop never raises, and in particular that
confirming in the network list is safe when the validated inventory
has an empty `networks` list.  The code violates this: the inventory
`{"networks": []}` validates cleanly and startup enters the network
list with zero networks and the cursor at 0, but confirming there
evaluates `networks[current_row]` on an empty list, an uncaught
IndexError (line 347).  This theorem evaluates the code at that
failing input. -/
theorem c1_empty_networks_confirm_crashes :
    run_start (fun _ => false) (fun s => s) cfgEmptyNetworks =
      .ok (some ([], .networkList 0)) ∧
    step [] (.networkList 0) .enter = .error () := ⟨rfl, rfl⟩

/-- C9: `validate_config` is not total over structured input: when the
`networks` list contains a non-object element such as the integer `5`,
the membership test `'name' not in network` raises TypeError instead
of producing an error message, for every filesystem oracle. -/
theorem c9_validate_config_raises (fs : String → Bool) (expand : String → String) :
    validate_config fs expand (.obj [("networks", .arr [.int 5])]) = .error () := rfl

/-- C10: the inventory `{"networks": []}` is accepted by
`validate_config` (empty error list), so startup proceeds into the
interactive loop with zero networks to select from, for every
filesystem oracle. -/
theorem c10_empty_networks_accepted (fs : String → Bool) (expand : String → String) :
    validate_config fs expand cfgEmptyNetworks = .ok [] ∧
    run_start fs expand cfgEmptyNetworks = .ok (some ([], .networkList 0)) := ⟨rfl, rfl⟩

/-- C2 counterexample: the claim says the synthesized legacy user's
description is exactly "Default user" for every legacy server.  On a
legacy server that carries its own `description` ("web server"), the
code reuses that description for the synthesized user
(`server.get('description', 'Default user')`, line 139), so the user's
description is "web server", not "Default user". -/
theorem c2_description_counterexample :
    normalize_server_format
      (.obj [("ip", .str "10.0.0.5"), ("description", .str "web server"),
             ("username", .str "root")]) =
      .ok (.obj [("ip", .str "10.0.0.5"), ("description", .str "web server"),
                 ("port", .int 22)],
           .arr [.obj [("username", .str "root"), ("key_path", .null),
                       ("description", .str "web server")]]) ∧
    ("web server" : String) ≠ "Default user" := ⟨rfl, by decide⟩

/-- `get_port` on a dict returns the pure `get_port_val`. -/
theorem get_port_obj (f : List (String × JVal)) :
    get_port (.obj f) = .ok (get_port_val f) := by
  simp only [get_port, get_port_val, pyGet, bindE_ok, pureE_eq_ok, apply_ite (Except.ok (ε := Unit))]

/-- C2 (amended): for every legacy-format server (a `username` field
and no `users` field), `normalize_server_format` returns a
single-element user list whose one user has the server's username, the
server's `key_path` as given (null when absent), and as description
the server's own `description` when present, otherwise
"Default user". -/
theorem c2_legacy_normalization (f : List (String × JVal)) (ipv uv : JVal)
    (hip : objGet? f "ip" = some ipv)
    (hun : objGet? f "username" = some uv)
    (hnu : objHas f "users" = false) :
    normalize_server_format (.obj f) =
      .ok (.obj [("ip", ipv),
                 ("description", (objGet? f "description").getD (.str "N/A")),
                 ("port", get_port_val f)],
           .arr [.obj [("username", uv),
                       ("key_path", (objGet? f "key_path").getD .null),
                       ("description", (objGet? f "description").getD (.str "Default user"))]]) := by
  simp only [normalize_server_format, pyGetItem, pyGet, pyContains, hip, hun, hnu,
    get_port_obj, bindE_ok, pureE_eq_ok, Bool.false_eq_true, if_false]

/-- C2 witness: the amended statement evaluated on a minimal legacy
server without a description field. -/
theorem c2_legacy_normalization_witness :
    normalize_server_format (.obj [("ip", .str "10.0.0.1"), ("username", .str "root")]) =
      .ok (.obj [("ip", .str "10.0.0.1"), ("description", .str "N/A"), ("port", .int 22)],
           .arr [.obj [("username", .str "root"), ("key_path", .null),
                       ("description", .str "Default user")]]) :=
  c2_legacy_normalization [("ip", .str "10.0.0.1"), ("username", .str "root")]
    (.str "10.0.0.1") (.str "root") rfl rfl rfl

/-- C4: `get_port` returns 22 when the stored port is absent, not a
Python int, or an int outside [1, 65535], and returns the stored value
itself when it is an int within [1, 65535]. -/
theorem c4_port_defaulting (f : List (String × JVal)) :
    (objGet? f "port" = none → get_port (.obj f) = .ok (.int 22)) ∧
    (∀ p, objGet? f "port" = some p → isInstInt p = false →
      get_port (.obj f) = .ok (.int 22)) ∧
    (∀ p, objGet? f "port" = some p → isInstInt p = true →
      (asInt p < 1 ∨ 65535 < asInt p) → get_port (.obj f) = .ok (.int 22)) ∧
    (∀ p, objGet? f "port" = some p → isInstInt p = true →
      1 ≤ asInt p → asInt p ≤ 65535 → get_port (.obj f) = .ok p) := by
  refine ⟨fun h => ?_, fun p hp hni => ?_, fun p hp hi hout => ?_, fun p hp hi h1 h2 => ?_⟩
  · simp [get_port, pyGet, h]
  · simp [get_port, pyGet, hp, hni]
  · rcases hout with h | h
    · simp [get_port, pyGet, hp, hi, Int.not_le.mpr h]
    · simp [get_port, pyGet, hp, hi, Int.not_le.mpr h]
  · simp [get_port, pyGet, hp, hi, h1, h2]

/-- C4 witness: the four cases of the claim evaluated at the spec's
sample ports (absent, "22", 0, 65536, 2222). -/
theorem c4_port_defaulting_witness :
    get_port (.obj [("ip", .str "x")]) = .ok (.int 22) ∧
    get_port (.obj [("port", .str "22")]) = .ok (.int 22) ∧
    get_port (.obj [("port", .int 0)]) = .ok (.int 22) ∧
    get_port (.obj [("port", .int 65536)]) = .ok (.int 22) ∧
    get_port (.obj [("port", .int 2222)]) = .ok (.int 2222) :=
  ⟨(c4_port_defaulting [("ip", .str "x")]).1 rfl,
   (c4_port_defaulting [("port", .str "22")]).2.1 (.str "22") rfl rfl,
   (c4_port_defaulting [("port", .int 0)]).2.2.1 (.int 0) rfl rfl (by decide),
   (c4_port_defaulting [("port", .int 65536)]).2.2.1 (.int 65536) rfl rfl (by decide),
   (c4_port_defaulting [("port", .int 2222)]).2.2.2 (.int 2222) rfl rfl (by decide) (by decide)⟩

/-- C5: `get_auth_method_display` returns KEY with the expanded key
path exactly when `key_path` is a present non-empty string, and
returns PASSWORD with no path when `key_path` is absent, null, or the
empty string. -/
theorem c5_auth_classification (expand : String → String) (f : List (String × JVal)) :
    (∀ s, objGet? f "key_path" = some (.str s) → s ≠ "" →
      get_auth_method_display expand (.obj f) = .ok ("KEY", some (expand s))) ∧
    ((objGet? f "key_path" = none ∨ objGet? f "key_path" = some .null ∨
        objGet? f "key_path" = some (.str "")) →
      get_auth_method_display expand (.obj f) = .ok ("PASSWORD", none)) ∧
    (∀ r p, get_auth_method_display expand (.obj f) = .ok (r, p) → r = "KEY" →
      ∃ s, objGet? f "key_path" = some (.str s) ∧ s ≠ "" ∧ p = some (expand s)) := by
  refine ⟨fun s hs hne => ?_, fun h => ?_, fun r p h hk => ?_⟩
  · simp [get_auth_method_display, pyGet, hs, truthy, asStr, hne]
  · rcases h with h | h | h <;> simp [get_auth_method_display, pyGet, h, truthy]
  · subst hk
    cases hkp : objGet? f "key_path" with
    | none => simp [get_auth_method_display, pyGet, hkp, truthy] at h
    | some v =>
      cases v with
      | null => simp [get_auth_method_display, pyGet, hkp, truthy] at h
      | bool b =>
        cases b <;> simp [get_auth_method_display, pyGet, hkp, truthy, asStr] at h
      | int n =>
        by_cases hn : n = 0 <;>
          simp [get_auth_method_display, pyGet, hkp, truthy, asStr, hn] at h
      | str s =>
        by_cases hs : s = ""
        · simp [get_auth_method_display, pyGet, hkp, truthy, hs] at h
        · refine ⟨s, rfl, hs, ?_⟩
          simp [get_auth_method_display, pyGet, hkp, truthy, asStr, hs] at h
          exact h.symm
      | arr xs =>
        cases xs <;> simp [get_auth_method_display, pyGet, hkp, truthy, asStr, List.isEmpty] at h
      | obj fs2 =>
        cases fs2 <;> simp [get_auth_method_display, pyGet, hkp, truthy, asStr, List.isEmpty] at h

/-- C5 witness: the classification evaluated on a keyed user and on a
keyless user. -/
theorem c5_auth_classification_witness :
    get_auth_method_display (fun s => s) (.obj [("key_path", .str "~/.ssh/id")]) =
      .ok ("KEY", some "~/.ssh/id") ∧
    get_auth_method_display (fun s => s) (.obj [("username", .str "a")]) =
      .ok ("PASSWORD", none) :=
  ⟨(c5_auth_classification (fun s => s) [("key_path", .str "~/.ssh/id")]).1
      "~/.ssh/id" rfl (by decide),
   (c5_auth_classification (fun s => s) [("username", .str "a")]).2.1
      (Or.inl rfl)⟩

/-- C6: confirming a server whose normalization yields exactly one
user transitions directly to the connect step with that user (the
state resumed afterwards is the server list, so no user-list state is
ever entered); confirming a server whose normalization yields two or
more users enters the user-list state. -/
theorem c6_single_user_shortcut (networks : List JVal) (netRow row : Nat)
    (servers server info : JVal) (users : List JVal)
    (hs : serversOf networks netRow = .ok servers)
    (hsrv : pySubNat servers row = .ok server)
    (hn : normalize_server_format server = .ok (info, .arr users)) :
    (∀ u, users = [u] → step networks (.serverList netRow row) .enter =
        .ok (.connecting (.serverList netRow row) info u)) ∧
    (2 ≤ users.length → step networks (.serverList netRow row) .enter =
        .ok (.userList netRow row 0)) := by
  constructor
  · rintro u rfl
    simp only [step, hs, bindE_ok]
    rw [hsrv]
    simp only [bindE_ok]
    rw [hn]
    simp [pyLen, pySubNat, pyIdx]
  · intro h2
    have hne : users.length ≠ 1 := by omega
    simp only [step, hs, bindE_ok]
    rw [hsrv]
    simp only [bindE_ok]
    rw [hn]
    simp [pyLen, hne]

/-- C6 witness: a network holding a legacy single-user server and a
two-user server; confirming the first connects directly, confirming
the second opens the user list. -/
theorem c6_single_user_shortcut_witness :
    step [mkNet [srvLegacy, srvTwoUsers]] (.serverList 0 0) .enter =
      .ok (.connecting (.serverList 0 0)
        (.obj [("ip", .str "10.0.0.1"), ("description", .str "N/A"), ("port", .int 22)])
        (.obj [("username", .str "root"), ("key_path", .null),
               ("description", .str "Default user")])) ∧
    step [mkNet [srvLegacy, srvTwoUsers]] (.serverList 0 1) .enter = .ok (.userList 0 1 0) :=
  ⟨(c6_single_user_shortcut [mkNet [srvLegacy, srvTwoUsers]] 0 0 _ _ _ _ rfl rfl rfl).1 _ rfl,
   (c6_single_user_shortcut [mkNet [srvLegacy, srvTwoUsers]] 0 1 _ _ _ _ rfl rfl rfl).2
     (by decide)⟩

/-- C7: confirming a network whose `servers` list is empty enters the
blocking empty-state screen (no exception), that screen shows the
empty-state message, and any key returns to the network list. -/
theorem c7_empty_server_network (networks : List JVal) (row : Nat)
    (nf : List (String × JVal)) (nv : JVal)
    (hnet : networks[row]? = some (.obj nf))
    (hname : objGet? nf "name" = some nv)
    (hsrv : objGet? nf "servers" = some (.arr [])) :
    step networks (.networkList row) .enter = .ok (.emptyServers row) ∧
    draw_no_servers networks row =
      .ok [pyStr nv ++ " Network",
           "No servers configured in this network",
           "Press any key to return..."] ∧
    (∀ k, step networks (.emptyServers row) k = .ok (.networkList row)) := by
  refine ⟨?_, ?_, fun k => ?_⟩
  · simp [step, pyIdx, hnet, pyGet, hsrv, truthy]
  · simp [draw_no_servers, pyIdx, hnet, pyGetItem, hname]
  · cases k <;> rfl

/-- C7 witness: the empty-server flow evaluated on a one-network
inventory whose network has `servers: []`. -/
theorem c7_empty_server_network_witness :
    step [mkNet []] (.networkList 0) .enter = .ok (.emptyServers 0) ∧
    draw_no_servers [mkNet []] 0 =
      .ok ["lab Network",
           "No servers configured in this network",
           "Press any key to return..."] ∧
    (∀ k, step [mkNet []] (.emptyServers 0) k = .ok (.networkList 0)) :=
  c7_empty_server_network [mkNet []] 0 [("name", .str "lab"), ("servers", .arr [])]
    (.str "lab") rfl rfl rfl

/-- A successful object lookup implies key membership. -/
theorem objGet?_some_has {f : List (String × JVal)} {k : String} {v : JVal}
    (h : objGet? f k = some v) : objHas f k = true := by
  unfold objGet? at h
  cases hf : List.find? (fun p => p.1 == k) f with
  | none => rw [hf] at h; simp at h
  | some p =>
    have hp := List.find?_some hf
    have hm := List.mem_of_find?_eq_some hf
    simp only [objHas, List.any_eq_true]
    exact ⟨p, hm, hp⟩

/-- Subscription of a dict succeeds exactly on its stored values. -/
theorem pyGetItem_obj {f : List (String × JVal)} {k : String} {v : JVal} :
    pyGetItem (.obj f) k = .ok v ↔ objGet? f k = some v := by
  unfold pyGetItem
  cases h : objGet? f k with
  | none => simp [h]
  | some w => simp [h]

/-- Every message produced by one iteration of an error-collection
loop appears in the loop's full result. -/
theorem collect_errors_sub (body : Nat → JVal → Except Unit (List String)) :
    ∀ (l : List JVal) (i0 : Nat) (E : List String),
      collect_errors body i0 l = .ok E →
      ∀ (j : Nat) (x : JVal), l[j]? = some x →
        ∃ e, body (i0 + j) x = .ok e ∧ ∀ y ∈ e, y ∈ E := by
  intro l
  induction l with
  | nil => intro i0 E _ j x hj; simp at hj
  | cons hd tl ih =>
    intro i0 E h j x hj
    unfold collect_errors at h
    obtain ⟨e, he, h⟩ := ok_of_bind_ok h
    obtain ⟨es, hes, h⟩ := ok_of_bind_ok h
    simp only [pureE_eq_ok, Except.ok.injEq] at h
    subst h
    match j, hj with
    | 0, hj =>
      have hx : hd = x := by simpa using hj
      subst hx
      exact ⟨e, by simpa using he, fun y hy => List.mem_append_left _ hy⟩
    | j + 1, hj =>
      have hj' : tl[j]? = some x := by simpa using hj
      obtain ⟨e', he', hsub⟩ := ih (i0 + 1) es hes j x hj'
      have harith : i0 + 1 + j = i0 + (j + 1) := by omega
      rw [harith] at he'
      exact ⟨e', he', fun y hy => List.mem_append_right _ (hsub y hy)⟩

/-- On an object whose `networks` field is a list, `validate_config`
is the network loop. -/
theorem validate_config_obj (fs : String → Bool) (expand : String → String)
    (cf : List (String × JVal)) (nets : List JVal)
    (h : objGet? cf "networks" = some (.arr nets)) :
    validate_config fs expand (.obj cf) = validate_networks fs expand 0 nets := by
  simp [validate_config, isInstDict, pyContains, objGet?_some_has h, pyGetItem, h,
    isInstList, asArr, validate_networks]

/-- A clean run of the per-network checks on an object whose `servers`
field is a list contains a clean run of the server loop. -/
theorem validate_network_servers (fs : String → Bool) (expand : String → String)
    (i : Nat) (nf : List (String × JVal)) (servers : List JVal) (e : List String)
    (hsv : objGet? nf "servers" = some (.arr servers))
    (he : validate_network fs expand i (.obj nf) = .ok e) :
    ∃ E, validate_servers fs expand ("Network [" ++ toString i ++ "]") 0 servers = .ok E ∧
      ∀ x ∈ E, x ∈ e := by
  unfold validate_network at he
  simp only [pyContains, bindE_ok, objGet?_some_has hsv, pyGetItem, hsv,
    isInstList, asArr, if_true, Bool.not_true, Bool.not_false] at he
  simp at he
  obtain ⟨E, hE, he⟩ := ok_of_bind_ok he
  simp only [pureE_eq_ok, Except.ok.injEq] at he
  subst he
  exact ⟨E, hE, fun x hx => List.mem_append_right _ hx⟩

/-- A server carrying both credential shapes yields the
"Cannot have both" error in any clean run of the per-server checks. -/
theorem validate_server_both (fs : String → Bool) (expand : String → String)
    (pre : String) (server : JVal) (e : List String)
    (ha : pyContains server "username" = .ok true)
    (hb : pyContains server "users" = .ok true)
    (h : validate_server fs expand pre server = .ok e) :
    (pre ++ ": Cannot have both \x27username\x27 and \x27users\x27 fields") ∈ e := by
  unfold validate_server at h
  obtain ⟨hasIp, hip, h⟩ := ok_of_bind_ok h
  rw [ha] at h
  simp only [bindE_ok] at h
  rw [hb] at h
  simp only [bindE_ok, Bool.not_true, Bool.and_self, Bool.false_and, Bool.and_false,
    Bool.true_and, Bool.and_true, Bool.false_eq_true, if_false, if_true] at h
  obtain ⟨e4, h4, h⟩ := ok_of_bind_ok h
  obtain ⟨e5, h5, h⟩ := ok_of_bind_ok h
  obtain ⟨e6, h6, h⟩ := ok_of_bind_ok h
  simp only [pureE_eq_ok, Except.ok.injEq] at h
  subst h
  simp

/-- A server carrying neither credential shape yields the
"Must have either" error in any clean run of the per-server checks. -/
theorem validate_server_neither (fs : String → Bool) (expand : String → String)
    (pre : String) (server : JVal) (e : List String)
    (ha : pyContains server "username" = .ok false)
    (hb : pyContains server "users" = .ok false)
    (h : validate_server fs expand pre server = .ok e) :
    (pre ++ ": Must have either \x27username\x27 or \x27users\x27 field") ∈ e := by
  unfold validate_server at h
  obtain ⟨hasIp, hip, h⟩ := ok_of_bind_ok h
  rw [ha] at h
  simp only [bindE_ok] at h
  rw [hb] at h
  simp only [bindE_ok, Bool.not_false, Bool.and_self, Bool.false_and, Bool.and_false,
    Bool.true_and, Bool.and_true, Bool.false_eq_true, if_false, if_true,
    users_errors, legacy_key_errors, pureE_eq_ok] at h
  obtain ⟨e5, h5, h⟩ := ok_of_bind_ok h
  simp only [pureE_eq_ok, Except.ok.injEq] at h
  subst h
  simp

/-- A server passes the per-server checks with no error only when
exactly one of the two credential shapes is present. -/
theorem validate_server_exactly_one (fs : String → Bool) (expand : String → String)
    (pre : String) (server : JVal) (a b : Bool)
    (ha : pyContains server "username" = .ok a)
    (hb : pyContains server "users" = .ok b)
    (h : validate_server fs expand pre server = .ok []) : a = !b := by
  cases a <;> cases b
  · exact absurd (validate_server_neither fs expand pre server [] ha hb h)
      (List.not_mem_nil _)
  · rfl
  · rfl
  · exact absurd (validate_server_both fs expand pre server [] ha hb h)
      (List.not_mem_nil _)

/-- C3: in every clean run of `validate_config`, a server record
carrying both `username` and `users` contributes the
"Cannot have both" error, a server carrying neither contributes the
distinct "Must have either" error, and a server with an empty overall
error list has exactly one of the two shapes. -/
theorem c3_credential_shape_errors (fs : String → Bool) (expand : String → String)
    (cf : List (String × JVal)) (nets : List JVal) (errs : List String)
    (i j : Nat) (nf : List (String × JVal)) (servers : List JVal) (server : JVal)
    (a b : Bool)
    (hok : validate_config fs expand (.obj cf) = .ok errs)
    (hnets : objGet? cf "networks" = some (.arr nets))
    (hni : nets[i]? = some (.obj nf))
    (hsv : objGet? nf "servers" = some (.arr servers))
    (hsj : servers[j]? = some server)
    (ha : pyContains server "username" = .ok a)
    (hb : pyContains server "users" = .ok b) :
    (a = true → b = true →
      ("Network [" ++ toString i ++ "]" ++ " Server [" ++ toString j ++ "]" ++
        ": Cannot have both \x27username\x27 and \x27users\x27 fields") ∈ errs) ∧
    (a = false → b = false →
      ("Network [" ++ toString i ++ "]" ++ " Server [" ++ toString j ++ "]" ++
        ": Must have either \x27username\x27 or \x27users\x27 field") ∈ errs) ∧
    ("Network [" ++ toString i ++ "]" ++ " Server [" ++ toString j ++ "]" ++
        ": Cannot have both \x27username\x27 and \x27users\x27 fields") ≠
      ("Network [" ++ toString i ++ "]" ++ " Server [" ++ toString j ++ "]" ++
        ": Must have either \x27username\x27 or \x27users\x27 field") ∧
    (errs = [] → a = !b) := by
  rw [validate_config_obj fs expand cf nets hnets] at hok
  unfold validate_networks at hok
  obtain ⟨eN, heN, hsubN⟩ := collect_errors_sub _ nets 0 errs hok i _ hni
  rw [Nat.zero_add] at heN
  obtain ⟨E, hE, hsubS⟩ := validate_network_servers fs expand i nf servers eN hsv heN
  unfold validate_servers at hE
  obtain ⟨eS, heS, hsubE⟩ := collect_errors_sub _ servers 0 E hE j server hsj
  rw [Nat.zero_add] at heS
  refine ⟨fun ha' hb' => ?_, fun ha' hb' => ?_, ?_, fun hnil => ?_⟩
  · subst ha'
    subst hb'
    exact hsubN _ (hsubS _ (hsubE _
      (validate_server_both fs expand _ server eS ha hb heS)))
  · subst ha'
    subst hb'
    exact hsubN _ (hsubS _ (hsubE _
      (validate_server_neither fs expand _ server eS ha hb heS)))
  · intro hmsg
    have hlen := congrArg String.length hmsg
    simp only [String.length_append] at hlen
    have h48 : (": Cannot have both \x27username\x27 and \x27users\x27 fields").length = 48 := by
      decide
    have h46 : (": Must have either \x27username\x27 or \x27users\x27 field").length = 46 := by
      decide
    rw [h48, h46] at hlen
    omega
  · subst hnil
    have heSnil : eS = [] := by
      cases heScases : eS with
      | nil => rfl
      | cons hd tl =>
        rw [heScases] at hsubE
        exact absurd (hsubN hd (hsubS hd (hsubE hd (by simp)))) (List.not_mem_nil hd)
    rw [heSnil] at heS
    exact validate_server_exactly_one fs expand _ server a b ha hb heS

/-- C3 witness: on a config with a both-shapes server and a
neither-shape server, the clean validation run contains both distinct
errors. -/
theorem c3_credential_shape_errors_witness :
    ("Network [" ++ toString 0 ++ "]" ++ " Server [" ++ toString 0 ++ "]" ++
      ": Cannot have both \x27username\x27 and \x27users\x27 fields") ∈ errsBothNeither ∧
    ("Network [" ++ toString 0 ++ "]" ++ " Server [" ++ toString 1 ++ "]" ++
      ": Must have either \x27username\x27 or \x27users\x27 field") ∈ errsBothNeither :=
  ⟨(c3_credential_shape_errors (fun _ => false) (fun s => s) cfBothNeither
      [.obj nfBothNeither] errsBothNeither 0 0 nfBothNeither [srvBoth, srvNeither]
      srvBoth true true rfl rfl rfl rfl rfl rfl rfl).1 rfl rfl,
   (c3_credential_shape_errors (fun _ => false) (fun s => s) cfBothNeither
      [.obj nfBothNeither] errsBothNeither 0 1 nfBothNeither [srvBoth, srvNeither]
      srvNeither false false rfl rfl rfl rfl rfl rfl rfl).2.1 rfl rfl⟩

/-- One keypress preserves the cursor bound in every state. -/
theorem cursorInv_step (networks : List JVal) (s : MenuState) (k : Key) (s' : MenuState)
    (hinv : cursorInv networks s) (hstep : step networks s k = .ok s') :
    cursorInv networks s' := by
  cases s with
  | networkList row =>
    have hrow : row < max networks.length 1 := hinv
    cases k with
    | up =>
      simp only [step, pureE_eq_ok, Except.ok.injEq] at hstep
      subst hstep
      split
      · exact lt_of_le_of_lt (Nat.sub_le row 1) hrow
      · exact hrow
    | down =>
      simp only [step, pureE_eq_ok, Except.ok.injEq] at hstep
      subst hstep
      split
      · next hc =>
        have hlt : row + 1 < networks.length := by omega
        exact lt_of_lt_of_le hlt (le_max_left _ _)
      · exact hrow
    | enter =>
      simp only [step] at hstep
      obtain ⟨net, hnet, hstep⟩ := ok_of_bind_ok hstep
      obtain ⟨so, hso, hstep⟩ := ok_of_bind_ok hstep
      split at hstep
      · simp only [pureE_eq_ok, Except.ok.injEq] at hstep
        subst hstep
        exact hrow
      · simp only [pureE_eq_ok, Except.ok.injEq] at hstep
        subst hstep
        exact ⟨hrow, fun sv n _ _ => lt_of_lt_of_le Nat.zero_lt_one (le_max_right n 1)⟩
    | quit =>
      simp only [step, pureE_eq_ok, Except.ok.injEq] at hstep
      subst hstep
      trivial
    | other c =>
      simp only [step, pureE_eq_ok, Except.ok.injEq] at hstep
      subst hstep
      exact hrow
  | emptyServers row =>
    have hrow : row < max networks.length 1 := hinv
    cases kep : k <;>
      (simp only [step, pureE_eq_ok, Except.ok.injEq] at hstep; subst hstep; exact hrow)
  | serverList netRow row =>
    obtain ⟨h1, h2⟩ := hinv
    cases k with
    | up =>
      simp only [step, pureE_eq_ok, Except.ok.injEq] at hstep
      subst hstep
      split
      · exact ⟨h1, fun sv n hsv hn => lt_of_le_of_lt (Nat.sub_le row 1) (h2 sv n hsv hn)⟩
      · exact ⟨h1, h2⟩
    | down =>
      simp only [step] at hstep
      obtain ⟨sv, hsv, hstep⟩ := ok_of_bind_ok hstep
      obtain ⟨n, hn, hstep⟩ := ok_of_bind_ok hstep
      simp only [pureE_eq_ok, Except.ok.injEq] at hstep
      subst hstep
      split
      · next hc =>
        refine ⟨h1, fun sv' n' hsv' hn' => ?_⟩
        rw [hsv] at hsv'
        simp only [Except.ok.injEq] at hsv'
        subst hsv'
        rw [hn] at hn'
        simp only [Except.ok.injEq] at hn'
        subst hn'
        have hlt : row + 1 < n := by omega
        exact lt_of_lt_of_le hlt (le_max_left _ _)
      · exact ⟨h1, h2⟩
    | enter =>
      simp only [step] at hstep
      obtain ⟨sv, hsv, hstep⟩ := ok_of_bind_ok hstep
      obtain ⟨server, hserver, hstep⟩ := ok_of_bind_ok hstep
      obtain ⟨r, hr, hstep⟩ := ok_of_bind_ok hstep
      obtain ⟨n, hn, hstep⟩ := ok_of_bind_ok hstep
      split at hstep
      · obtain ⟨u, hu, hstep⟩ := ok_of_bind_ok hstep
        simp only [pureE_eq_ok, Except.ok.injEq] at hstep
        subst hstep
        exact ⟨h1, h2⟩
      · simp only [pureE_eq_ok, Except.ok.injEq] at hstep
        subst hstep
        exact ⟨h1, h2, fun r m _ _ => lt_of_lt_of_le Nat.zero_lt_one (le_max_right m 1)⟩
    | quit =>
      simp only [step, pureE_eq_ok, Except.ok.injEq] at hstep
      subst hstep
      exact h1
    | other c =>
      simp only [step, pureE_eq_ok, Except.ok.injEq] at hstep
      subst hstep
      exact ⟨h1, h2⟩
  | userList netRow srvRow row =>
    obtain ⟨h1, h2, h3⟩ := hinv
    cases k with
    | up =>
      simp only [step, pureE_eq_ok, Except.ok.injEq] at hstep
      subst hstep
      split
      · exact ⟨h1, h2, fun r m hr hm => lt_of_le_of_lt (Nat.sub_le row 1) (h3 r m hr hm)⟩
      · exact ⟨h1, h2, h3⟩
    | down =>
      simp only [step] at hstep
      obtain ⟨r, hr, hstep⟩ := ok_of_bind_ok hstep
      obtain ⟨n, hn, hstep⟩ := ok_of_bind_ok hstep
      simp only [pureE_eq_ok, Except.ok.injEq] at hstep
      subst hstep
      split
      · next hc =>
        refine ⟨h1, h2, fun r' m hr' hm' => ?_⟩
        rw [hr] at hr'
        simp only [Except.ok.injEq] at hr'
        subst hr'
        rw [hn] at hm'
        simp only [Except.ok.injEq] at hm'
        subst hm'
        have hlt : row + 1 < n := by omega
        exact lt_of_lt_of_le hlt (le_max_left _ _)
      · exact ⟨h1, h2, h3⟩
    | enter =>
      simp only [step] at hstep
      obtain ⟨r, hr, hstep⟩ := ok_of_bind_ok hstep
      obtain ⟨u, hu, hstep⟩ := ok_of_bind_ok hstep
      simp only [pureE_eq_ok, Except.ok.injEq] at hstep
      subst hstep
      exact ⟨h1, h2, h3⟩
    | quit =>
      simp only [step, pureE_eq_ok, Except.ok.injEq] at hstep
      subst hstep
      exact ⟨h1, h2⟩
    | other c =>
      simp only [step, pureE_eq_ok, Except.ok.injEq] at hstep
      subst hstep
      exact ⟨h1, h2, h3⟩
  | connecting back info user =>
    cases kcs : k <;>
      (simp only [step, pureE_eq_ok, Except.ok.injEq] at hstep; subst hstep; exact hinv)
  | exited =>
    cases kcs : k <;>
      (simp only [step, pureE_eq_ok, Except.ok.injEq] at hstep; subst hstep; trivial)

/-- C8 counterexample: the claim bounds the cursor by [0, len-1] in
every list state, but the empty-networks inventory validates and
enters the network list with cursor 0 and zero rows (and stays there
on any keypress), where 0 exceeds len-1 = -1. -/
theorem c8_cursor_counterexample :
    run_start (fun _ => false) (fun s => s) cfgEmptyNetworks =
      .ok (some ([], .networkList 0)) ∧
    step [] (.networkList 0) (.other 120) = .ok (.networkList 0) ∧
    ¬((0 : Int) ≤ (([] : List JVal).length : Int) - 1) :=
  ⟨rfl, rfl, by decide⟩

/-- C8 (amended): every list cursor starts at 0; each keypress keeps
every cursor within [0, max(len,1)-1] (i.e. within [0, len-1] when the
list is non-empty and pinned at 0 when it is empty); up at the top and
down at the bottom are clamped in place. -/
theorem c8_cursor_invariant (networks : List JVal) :
    cursorInv networks (.networkList 0) ∧
    (∀ s k s', cursorInv networks s → step networks s k = .ok s' →
      cursorInv networks s') ∧
    step networks (.networkList 0) .up = .ok (.networkList 0) ∧
    step networks (.networkList (networks.length - 1)) .down =
      .ok (.networkList (networks.length - 1)) ∧
    (∀ nr, step networks (.serverList nr 0) .up = .ok (.serverList nr 0)) ∧
    (∀ nr sr, step networks (.userList nr sr 0) .up = .ok (.userList nr sr 0)) := by
  refine ⟨?_, fun s k s' h hs => cursorInv_step networks s k s' h hs, rfl, ?_,
    fun nr => rfl, fun nr sr => rfl⟩
  · exact lt_of_lt_of_le Nat.zero_lt_one (le_max_right _ _)
  · simp [step, Nat.lt_irrefl]

/-- C8 witness: the preservation conjunct applied on a one-network
inventory to a down keypress at the bottom of the network list. -/
theorem c8_cursor_invariant_witness : cursorInv [mkNet []] (.networkList 0) :=
  (c8_cursor_invariant [mkNet []]).2.1 (.networkList 0) .down (.networkList 0)
    (by simp [cursorInv]) rfl

end SSHMenu
